import Mathlib

/-!
# Verification of the lever-ui-eventbus dispatch core

A shallow embedding of the event-bus dispatch engine:
`TypeResolver.getTypesFor` (src/utils/type-resolver.ts), the handler
registry, `EventBus.post` / `EventBus.deliver` (src/event-bus.ts), the
`DeadEvent` wrapper, and the `AsyncEventBus.deliver` override that routes
each handler invocation through a task executor.

JavaScript values are modelled by `BusEvent`; the constructor walk that
`getTypesFor` performs over `event.constructor` and
`Object.getPrototypeOf(ctor.prototype)?.constructor` is modelled by
`CtorChain`, whose constructors correspond to the possible outcomes of one
step of that walk.  Handler bodies are modelled by their observable effect
on the bus (a registry mutation plus a did-throw flag), and a thrown
exception is modelled with `Except`.
-/

namespace LeverBus

/-- A runtime constructor identity used as a registry key: the universal
root `Object`, the `DeadEvent` class, or any other class (by numeric id). -/
inductive Ctor where
  | object
  | deadEventType
  | cls (id : Nat)
deriving DecidableEq, Repr

/-- The constructor walk reachable from a value, one node per iteration of
the `while (ctor && ctor !== Object)` loop in `getTypesFor`:
`nullC` = the current constructor is null/undefined (loop exits),
`objectC` = the current constructor is `Object` (loop exits),
`cls id next` = a proper class with a usable `prototype` whose prototype
walk continues with `next`, `deadC next` = the `DeadEvent` class likewise,
`malformed` = a truthy non-`Object` value without a usable `prototype`
object (e.g. `{constructor: 42}`), for which
`Object.getPrototypeOf(ctor.prototype)` raises a TypeError. -/
inductive CtorChain where
  | nullC
  | objectC
  | cls (id : Nat) (next : CtorChain)
  | deadC (next : CtorChain)
  | malformed
deriving DecidableEq, Repr

/-- A JavaScript value as seen by the bus: `null`, `undefined`, a
non-object primitive (number/string/boolean/symbol/function, tagged by a
`Nat`), an ordinary object with an identity `oid` and a constructor walk,
or a `DeadEvent` instance `new DeadEvent(source, inner)`. -/
inductive BusEvent where
  | jnull
  | jundef
  | prim (tag : Nat)
  | obj (oid : Nat) (chain : CtorChain)
  | dead (oid : Nat) (source : Nat) (inner : BusEvent)
deriving DecidableEq, Repr

/-- `event == null` (loose equality: true exactly for null and undefined). -/
def BusEvent.isNullish : BusEvent → Bool
  | .jnull => true
  | .jundef => true
  | _ => false

/-- Whether the value passes the `!event || typeof event !== 'object'`
guard in `getTypesFor`, i.e. is a truthy value of object type. -/
def BusEvent.isObjVal : BusEvent → Bool
  | .obj _ _ => true
  | .dead _ _ _ => true
  | _ => false

/-- `event instanceof DeadEvent`. -/
def BusEvent.isDeadInstance : BusEvent → Bool
  | .dead _ _ _ => true
  | _ => false

/-- The object identity used as the WeakMap cache key (only meaningful for
object values; the resolver returns early for everything else). -/
def BusEvent.oidOf : BusEvent → Nat
  | .obj oid _ => oid
  | .dead oid _ _ => oid
  | _ => 0

/-- The constructor walk starting at `event.constructor`.  A `DeadEvent`
instance is a direct instance of the `DeadEvent` class, which extends
nothing, so its walk is the `DeadEvent` class followed by `Object`. -/
def BusEvent.chainOf : BusEvent → CtorChain
  | .obj _ ch => ch
  | .dead _ _ _ => .deadC .objectC
  | _ => .nullC

/-- Nesting depth of `DeadEvent` wrappers (a measure used to show that a
`DeadEvent` wrapping `e` is never equal to `e`). -/
def BusEvent.deadDepth : BusEvent → Nat
  | .dead _ _ inner => inner.deadDepth + 1
  | _ => 0

/-- The `while (ctor && ctor !== Object)` loop body of `getTypesFor`:
pushes each encountered class constructor, stops at null or `Object`, and
raises a TypeError at a malformed constructor (where the source evaluates
`Object.getPrototypeOf(ctor.prototype)` with `ctor.prototype` not
coercible to an object). -/
def walkChain : CtorChain → Except Unit (List Ctor)
  | .nullC => .ok []
  | .objectC => .ok []
  | .cls id next =>
    match walkChain next with
    | .error e => .error e
    | .ok rest => .ok (Ctor.cls id :: rest)
  | .deadC next =>
    match walkChain next with
    | .error e => .error e
    | .ok rest => .ok (Ctor.deadEventType :: rest)
  | .malformed => .error ()

/-- Lookup in the resolver's cache (the `WeakMap` keyed by event
identity). -/
def cacheFind : List (Nat × List Ctor) → Nat → Option (List Ctor)
  | [], _ => none
  | (k, v) :: rest, oid => if k = oid then some v else cacheFind rest oid

/-- The `TypeResolver` state: the `typeCache` WeakMap, modelled as an
association list from object identity to the cached type list. -/
structure TypeResolver where
  typeCache : List (Nat × List Ctor)
deriving DecidableEq, Repr

/-- `TypeResolver.getTypesFor(event, hasObjectHandler)`.  Returns the
resolved type list and the updated resolver state, or a TypeError.
Mirrors the source: early empty return for non-objects; on a cache hit,
appends `Object` to a derived copy when requested and missing, without
storing it; on a miss, walks the constructor chain, appends `Object` when
requested, and caches the result (including that appended root). -/
def getTypesFor (tr : TypeResolver) (event : BusEvent) (hasObjectHandler : Bool) :
    Except Unit (List Ctor × TypeResolver) :=
  if event.isObjVal = false then .ok ([], tr)
  else
    match cacheFind tr.typeCache event.oidOf with
    | some cached =>
      .ok (if hasObjectHandler = true ∧ Ctor.object ∉ cached
            then cached ++ [Ctor.object] else cached, tr)
    | none =>
      match walkChain event.chainOf with
      | .error e => .error e
      | .ok out0 =>
        let out := if hasObjectHandler then out0 ++ [Ctor.object] else out0
        .ok (out, ⟨(event.oidOf, out) :: tr.typeCache⟩)

/-- The handler registry: `Map<Constructor, Set<HandlerRec>>`, modelled as
an insertion-ordered association list from type to the list of handler
record ids registered under it. -/
abbrev Registry := List (Ctor × List Nat)

/-- `registry.get(type)`. -/
def regFind : Registry → Ctor → Option (List Nat)
  | [], _ => none
  | (t, hs) :: rest, t2 => if t = t2 then some hs else regFind rest t2

/-- `registry.has(Object)`. -/
def hasObjectKey (reg : Registry) : Bool :=
  (regFind reg Ctor.object).isSome

/-- One entry of `handlersToCall` in `post`: a handler record id paired
with the resolved type it was registered under and the event passed to it.
Also serves as the zero-argument task `() => super.deliver(fn, type,
event)` that `AsyncEventBus.deliver` hands to the executor. -/
structure Invocation where
  fn : Nat
  eventType : Ctor
  event : BusEvent
deriving DecidableEq, Repr

/-- The `SubscriberExceptionContext` passed to the exception handler. -/
structure Ctx where
  event : BusEvent
  eventType : Ctor
  handler : Nat
  eventBus : Nat
deriving DecidableEq, Repr

/-- The behaviour environment: for each handler record id, whether its
body throws on a given event and how it mutates the registry (modelling
subscribes/unsubscribes performed inside a handler body), and whether the
configured exception reporter throws when invoked with a given context. -/
structure Env where
  handlerThrows : Nat → BusEvent → Bool
  handlerMutate : Nat → BusEvent → Registry → Registry
  reporterThrows : Ctx → Bool

/-- The mutable state of one bus instance: its identity (the `this` stored
as a `DeadEvent` source and as `ctx.eventBus`), the registry, the type
resolver, an allocator for fresh object identities (`new DeadEvent`
allocations), and — for the deferred variant — the executor's task queue. -/
structure BusState where
  busId : Nat
  registry : Registry
  resolver : TypeResolver
  nextOid : Nat
  tasks : List Invocation
deriving Repr

/-- Which `deliver` implementation the bus uses: the synchronous
`EventBus.deliver` or the queueing `AsyncEventBus.deliver` override. -/
inductive Mode where
  | sync
  | queued
deriving DecidableEq, Repr

/-- An exception escaping `post`: the resolver's TypeError, or an
exception reporter's own exception (carrying the context it was invoked
with). -/
inductive PostErr where
  | typeError
  | reporterErr (c : Ctx)
deriving DecidableEq, Repr

/-- `EventBus.deliver(fn, type, event)`: run the handler body (its
registry mutation, then its possible throw); a thrown error is caught and
the exception reporter is invoked with the context; an exception inside
the reporter itself is not caught.  Returns the new state, the reporter
invocations, and the handler invocation performed. -/
def deliverSync (env : Env) (st : BusState) (fn : Nat) (t : Ctor) (e : BusEvent) :
    Except Ctx (BusState × List Ctx × List Invocation) :=
  let st2 := { st with registry := env.handlerMutate fn e st.registry }
  if env.handlerThrows fn e then
    let c : Ctx := ⟨e, t, fn, st.busId⟩
    if env.reporterThrows c then .error c
    else .ok (st2, [c], [⟨fn, t, e⟩])
  else .ok (st2, [], [⟨fn, t, e⟩])

/-- The per-handler invocation step, by bus variant: the synchronous bus
calls `deliverSync` inline; the deferred bus appends the zero-argument
task `() => super.deliver(fn, type, event)` to the executor queue and
runs no handler body. -/
def deliver (mode : Mode) (env : Env) (st : BusState) (fn : Nat) (t : Ctor) (e : BusEvent) :
    Except Ctx (BusState × List Ctx × List Invocation) :=
  match mode with
  | .sync => deliverSync env st fn t e
  | .queued => .ok ({ st with tasks := st.tasks ++ [⟨fn, t, e⟩] }, [], [])

/-- Executing one queued task later: the task body is
`super.deliver(fn, type, event)`. -/
def runTask (env : Env) (st : BusState) (tk : Invocation) :
    Except Ctx (BusState × List Ctx × List Invocation) :=
  deliverSync env st tk.fn tk.eventType tk.event

/-- The `handlersToCall` pre-collection loop of `post`: for each resolved
type in order, every handler currently registered under it, in insertion
order. -/
def snapshotFor (reg : Registry) (types : List Ctor) : List (Ctor × Nat) :=
  types.flatMap fun t =>
    match regFind reg t with
    | none => []
    | some hs => hs.map fun h => (t, h)

/-- The delivery loop of `post`: invoke each snapshotted handler in order
via `deliver`, threading the state and collecting reporter invocations and
handler invocations; a reporter exception aborts the loop and escapes. -/
def deliverAll (mode : Mode) (env : Env) (e : BusEvent) :
    List (Ctor × Nat) → BusState → Except PostErr (BusState × List Ctx × List Invocation)
  | [], st => .ok (st, [], [])
  | (t, fn) :: rest, st =>
    match deliver mode env st fn t e with
    | .error c => .error (.reporterErr c)
    | .ok (st1, reps1, invs1) =>
      match deliverAll mode env e rest st1 with
      | .error x => .error x
      | .ok (st2, reps2, invs2) => .ok (st2, reps1 ++ reps2, invs1 ++ invs2)

/-- The observable outcome of one `post` call: the returned delivered
count, the final state, the reporter invocations, the handler invocations
(in execution order, each with the event it received), and the `DeadEvent`
instances created and re-posted during the call. -/
structure PostResult where
  delivered : Nat
  st : BusState
  reports : List Ctx
  invoked : List Invocation
  deadPosted : List BusEvent
deriving Repr

/-- `EventBus.post(event)`: null check, type resolution (passing
`registry.has(Object)`), handler snapshot and `delivered` tally computed
before any invocation, the delivery loop, and — when `delivered === 0` and
the event is not itself a `DeadEvent` — a recursive post of
`new DeadEvent(this, event)`.  Returns the outer `delivered` count. -/
def post (mode : Mode) (env : Env) (st : BusState) (e : BusEvent) :
    Except PostErr PostResult :=
  if e.isNullish then .ok ⟨0, st, [], [], []⟩
  else
    match getTypesFor st.resolver e (hasObjectKey st.registry) with
    | .error _ => .error .typeError
    | .ok (types, res2) =>
      let snap := snapshotFor st.registry types
      let delivered := snap.length
      match deliverAll mode env e snap { st with resolver := res2 } with
      | .error x => .error x
      | .ok (st2, reps, invs) =>
        if h : delivered = 0 ∧ e.isDeadInstance = false then
          let de := BusEvent.dead st2.nextOid st2.busId e
          match post mode env { st2 with nextOid := st2.nextOid + 1 } de with
          | .error x => .error x
          | .ok r2 =>
            .ok ⟨delivered, r2.st, reps ++ r2.reports, invs ++ r2.invoked,
                 de :: r2.deadPosted⟩
        else
          .ok ⟨delivered, st2, reps, invs, []⟩
termination_by (if e.isDeadInstance then 0 else 1)
decreasing_by cases e <;> simp_all [BusEvent.isDeadInstance]

/-! ## Helper lemmas -/

/-- The constructor walk never yields the universal root itself: the loop
guard `ctor !== Object` excludes it. -/
theorem walkChain_no_object {ch : CtorChain} {ts : List Ctor}
    (h : walkChain ch = .ok ts) : Ctor.object ∉ ts := by
  induction ch generalizing ts with
  | nullC =>
    simp only [walkChain, Except.ok.injEq] at h
    subst h; simp
  | objectC =>
    simp only [walkChain, Except.ok.injEq] at h
    subst h; simp
  | cls id next ih =>
    revert h
    simp only [walkChain]
    cases hw : walkChain next with
    | error e => intro h; cases h
    | ok rest =>
      intro h
      cases h
      intro hmem
      rcases List.mem_cons.mp hmem with h1 | h1
      · cases h1
      · exact ih hw h1
  | deadC next ih =>
    revert h
    simp only [walkChain]
    cases hw : walkChain next with
    | error e => intro h; cases h
    | ok rest =>
      intro h
      cases h
      intro hmem
      rcases List.mem_cons.mp hmem with h1 | h1
      · cases h1
      · exact ih hw h1
  | malformed => simp [walkChain] at h

/-- Resolving a `DeadEvent` instance never raises: its constructor walk is
well-formed, and a cache hit is an early return. -/
theorem getTypesFor_dead_ok (tr : TypeResolver) (a b : Nat) (i : BusEvent)
    (flag : Bool) :
    ∃ ts tr2, getTypesFor tr (BusEvent.dead a b i) flag = .ok (ts, tr2) := by
  unfold getTypesFor
  simp only [BusEvent.isObjVal]
  cases hc : cacheFind tr.typeCache (BusEvent.dead a b i).oidOf with
  | some cached => exact ⟨_, _, rfl⟩
  | none =>
    simp only [BusEvent.chainOf, walkChain]
    exact ⟨_, _, rfl⟩

/-- When a universal-root handler exists, the resolved type list of any
object value contains the root: both the cache-hit and cache-miss branches
ensure it. -/
theorem getTypesFor_object_mem {tr : TypeResolver} {e : BusEvent}
    {ts : List Ctor} {tr2 : TypeResolver}
    (ho : e.isObjVal = true)
    (h : getTypesFor tr e true = .ok (ts, tr2)) : Ctor.object ∈ ts := by
  unfold getTypesFor at h
  rw [ho] at h
  simp only [Bool.true_eq_false, if_false] at h
  split at h
  case h_1 cached heq =>
    by_cases hmem : Ctor.object ∈ cached
    · rw [if_neg (by simp [hmem])] at h
      cases h
      exact hmem
    · rw [if_pos ⟨trivial, hmem⟩] at h
      cases h
      simp
  case h_2 heq =>
    split at h
    · exact (Except.noConfusion h)
    · simp only [if_pos] at h
      cases h
      simp

/-- If every resolved type has no registered handlers, the snapshot is
empty. -/
theorem snapshotFor_nil_of_empty {reg : Registry} {types : List Ctor}
    (h : ∀ t ∈ types, ∀ hs, regFind reg t = some hs → hs = []) :
    snapshotFor reg types = [] := by
  induction types with
  | nil => rfl
  | cons t rest ih =>
    simp only [snapshotFor, List.flatMap_cons]
    have h1 : (match regFind reg t with
        | none => []
        | some hs => hs.map fun h => (t, h)) = ([] : List (Ctor × Nat)) := by
      cases hr : regFind reg t with
      | none => rfl
      | some hs => simp [h t (by simp) hs hr]
    rw [h1]
    simpa [snapshotFor] using ih fun t2 ht2 => h t2 (by simp [ht2])

/-- Every snapshot entry's type component is one of the resolved types. -/
theorem mem_snapshotFor {reg : Registry} {types : List Ctor}
    {p : Ctor × Nat} (h : p ∈ snapshotFor reg types) : p.1 ∈ types := by
  induction types with
  | nil => simp [snapshotFor] at h
  | cons t rest ih =>
    simp only [snapshotFor, List.flatMap_cons, List.mem_append] at h
    rcases h with h1 | h1
    · cases hr : regFind reg t with
      | none => rw [hr] at h1; simp at h1
      | some hs =>
        rw [hr] at h1
        rcases List.mem_map.mp h1 with ⟨x, _, hx⟩
        simp [← hx]
    · exact List.mem_cons_of_mem _ (ih h1)

/-- Mapping a handler list into snapshot pairs preserves occurrence
counts. -/
theorem count_map_pair (hs : List Nat) (t : Ctor) (fn : Nat) :
    ((hs.map fun h => (t, h)).count (t, fn)) = hs.count fn := by
  induction hs with
  | nil => rfl
  | cons h rest ih =>
    simp only [List.map_cons, List.count_cons, ih]
    congr 1
    by_cases he : h = fn <;> simp [he]

/-- A type not among the resolved types contributes no snapshot entries. -/
theorem snapshotFor_count_zero {reg : Registry} {types : List Ctor}
    {t : Ctor} {fn : Nat} (h : t ∉ types) :
    (snapshotFor reg types).count (t, fn) = 0 := by
  rw [List.count_eq_zero]
  intro hmem
  exact h (mem_snapshotFor hmem)

/-- A type resolved exactly once contributes each of its handlers to the
snapshot exactly as often as that handler is registered under it. -/
theorem snapshotFor_count {reg : Registry} {types : List Ctor} {t : Ctor}
    {hs : List Nat} {fn : Nat}
    (h1 : types.count t = 1) (h2 : regFind reg t = some hs) :
    (snapshotFor reg types).count (t, fn) = hs.count fn := by
  induction types with
  | nil => simp at h1
  | cons t0 rest ih =>
    by_cases he : t0 = t
    · subst he
      rw [List.count_cons_self] at h1
      have hrest : t0 ∉ rest := by
        rw [Nat.add_left_eq_self] at h1
        exact List.count_eq_zero.mp h1
      simp only [snapshotFor, List.flatMap_cons, h2, List.count_append]
      rw [count_map_pair]
      have : (snapshotFor reg rest).count (t0, fn) = 0 :=
        snapshotFor_count_zero hrest
      simpa [snapshotFor] using this
    · rw [List.count_cons_of_ne (by simp [Ne, eq_comm] at he ⊢; exact he)] at h1
      have := ih h1
      simp only [snapshotFor, List.flatMap_cons, List.count_append]
      have hz : (match regFind reg t0 with
          | none => ([] : List (Ctor × Nat))
          | some hs0 => hs0.map fun h => (t0, h)).count (t, fn) = 0 := by
        cases hr : regFind reg t0 with
        | none => rfl
        | some hs0 =>
          simp only [List.count_eq_zero]
          intro hmem
          rcases List.mem_map.mp hmem with ⟨x, _, hx⟩
          exact he (by cases hx; rfl)
      rw [hz]
      simpa [snapshotFor] using this

/-- A `DeadEvent` wrapping an event is never that event itself. -/
theorem dead_ne_self (a b : Nat) (e : BusEvent) : BusEvent.dead a b e ≠ e := by
  intro h
  have h2 := congrArg BusEvent.deadDepth h
  simp only [BusEvent.deadDepth] at h2
  omega

/-- With a non-throwing reporter, the synchronous delivery loop never
fails: it invokes each snapshotted handler in order with the posted event,
reports exactly the throwing invocations (with the bus as context), and
changes nothing in the state except the registry. -/
theorem deliverAll_sync_char (env : Env) (e : BusEvent)
    (hR : ∀ c, env.reporterThrows c = false) :
    ∀ (snap : List (Ctor × Nat)) (st : BusState), ∃ reg2,
      deliverAll .sync env e snap st =
        .ok ({ st with registry := reg2 },
          (snap.filter fun p => env.handlerThrows p.2 e).map
            fun p => ⟨e, p.1, p.2, st.busId⟩,
          snap.map fun p => ⟨p.2, p.1, e⟩) := by
  intro snap
  induction snap with
  | nil => exact fun st => ⟨st.registry, by simp [deliverAll]⟩
  | cons p rest ih =>
    intro st
    obtain ⟨t, fn⟩ := p
    obtain ⟨reg2, hrest⟩ :=
      ih { st with registry := env.handlerMutate fn e st.registry }
    refine ⟨reg2, ?_⟩
    simp only [deliverAll, deliver, deliverSync]
    cases hth : env.handlerThrows fn e with
    | false => simp [hrest, hth]
    | true => simp [hR, hrest, hth]

/-- The queued delivery loop never fails, runs no handler body, and only
appends one task per snapshotted handler, in snapshot order. -/
theorem deliverAll_queued_char (env : Env) (e : BusEvent) :
    ∀ (snap : List (Ctor × Nat)) (st : BusState),
      deliverAll .queued env e snap st =
        .ok ({ st with tasks := st.tasks ++ snap.map fun p => ⟨p.2, p.1, e⟩ },
          [], []) := by
  intro snap
  induction snap with
  | nil => intro st; simp [deliverAll]
  | cons p rest ih =>
    intro st
    obtain ⟨t, fn⟩ := p
    simp only [deliverAll, deliver]
    rw [ih]
    simp

/-- Posting a `DeadEvent` instance on the synchronous bus with a
non-throwing reporter always returns: it never re-posts a further
`DeadEvent`, and every handler invocation and report it produces carries
that `DeadEvent`. -/
theorem post_dead_sync_char (env : Env) (st : BusState) (a b : Nat)
    (i : BusEvent) (hR : ∀ c, env.reporterThrows c = false) :
    ∃ r, post .sync env st (BusEvent.dead a b i) = .ok r ∧
      r.deadPosted = [] ∧
      (∀ iv ∈ r.invoked, iv.event = BusEvent.dead a b i) ∧
      (∀ c ∈ r.reports, c.event = BusEvent.dead a b i) := by
  obtain ⟨ts, tr2, hg⟩ :=
    getTypesFor_dead_ok st.resolver a b i (hasObjectKey st.registry)
  rw [post]
  simp only [BusEvent.isNullish, Bool.false_eq_true, if_false, hg]
  obtain ⟨reg2, hda⟩ := deliverAll_sync_char env (BusEvent.dead a b i) hR
    (snapshotFor st.registry ts) { st with resolver := tr2 }
  simp only [hda]
  rw [dif_neg (by simp [BusEvent.isDeadInstance])]
  refine ⟨_, rfl, rfl, ?_, ?_⟩
  · intro iv hiv
    rcases List.mem_map.mp hiv with ⟨p, _, hp⟩
    rw [← hp]
  · intro c hc
    rcases List.mem_map.mp hc with ⟨p, _, hp⟩
    rw [← hp]

/-- Posting a `DeadEvent` instance on the deferred bus: always returns,
never re-posts a further `DeadEvent`, runs nothing, reports nothing, and
appends one task per snapshotted handler of the `DeadEvent`. -/
theorem post_dead_queued_char (env : Env) (st : BusState) (a b : Nat)
    (i : BusEvent) :
    ∃ ts tr2, getTypesFor st.resolver (BusEvent.dead a b i)
        (hasObjectKey st.registry) = .ok (ts, tr2) ∧
      post .queued env st (BusEvent.dead a b i) =
        .ok ⟨(snapshotFor st.registry ts).length,
          ⟨st.busId, st.registry, tr2, st.nextOid,
            st.tasks ++ (snapshotFor st.registry ts).map
              (fun p => ⟨p.2, p.1, BusEvent.dead a b i⟩)⟩,
          [], [], []⟩ := by
  obtain ⟨ts, tr2, hg⟩ :=
    getTypesFor_dead_ok st.resolver a b i (hasObjectKey st.registry)
  refine ⟨ts, tr2, hg, ?_⟩
  rw [post]
  simp [hg, deliverAll_queued_char, BusEvent.isNullish, BusEvent.isDeadInstance]

/-- Whenever `post` returns (in either variant), the returned count is the
size of the handler snapshot taken from the pre-call registry over the
resolved types. -/
theorem post_delivered_eq {mode : Mode} {env : Env} {st : BusState}
    {e : BusEvent} {types : List Ctor} {res2 : TypeResolver} {r : PostResult}
    (hn : e.isNullish = false)
    (hres : getTypesFor st.resolver e (hasObjectKey st.registry) =
      .ok (types, res2))
    (h : post mode env st e = .ok r) :
    r.delivered = (snapshotFor st.registry types).length := by
  rw [post] at h
  simp only [hn, Bool.false_eq_true, if_false, hres] at h
  cases hda : deliverAll mode env e (snapshotFor st.registry types)
      { st with resolver := res2 } with
  | error x =>
    simp only [hda] at h
    exact Except.noConfusion h
  | ok out =>
    obtain ⟨st2, reps, invs⟩ := out
    simp only [hda] at h
    split at h
    · cases hp : post mode env { st2 with nextOid := st2.nextOid + 1 }
          (BusEvent.dead st2.nextOid st2.busId e) with
      | error x =>
        simp only [hp] at h
        exact Except.noConfusion h
      | ok r2 =>
        simp only [hp] at h
        cases h
        rfl
    · cases h
      rfl

/-- Full characterization of a successful synchronous `post` with a
non-throwing reporter: the returned count is the snapshot size; the
snapshotted handlers are invoked in snapshot order with the posted event,
followed only by the dead-event deliveries; reports are exactly one per
throwing snapshotted invocation, followed only by dead-event reports; and
a `DeadEvent` is re-posted exactly when the snapshot is empty and the
event is not itself a `DeadEvent`. -/
theorem post_sync_char (env : Env) (st : BusState) (e : BusEvent)
    (types : List Ctor) (res2 : TypeResolver)
    (hR : ∀ c, env.reporterThrows c = false)
    (hn : e.isNullish = false)
    (hres : getTypesFor st.resolver e (hasObjectKey st.registry) =
      .ok (types, res2)) :
    ∃ r deadInvs deadReps,
      post .sync env st e = .ok r ∧
      r.delivered = (snapshotFor st.registry types).length ∧
      r.invoked =
        ((snapshotFor st.registry types).map (fun p => ⟨p.2, p.1, e⟩))
          ++ deadInvs ∧
      r.reports =
        (((snapshotFor st.registry types).filter
            (fun p => env.handlerThrows p.2 e)).map
          (fun p => ⟨e, p.1, p.2, st.busId⟩)) ++ deadReps ∧
      ((snapshotFor st.registry types).length = 0 ∧ e.isDeadInstance = false →
        r.deadPosted = [BusEvent.dead st.nextOid st.busId e] ∧
        (∀ iv ∈ deadInvs, iv.event = BusEvent.dead st.nextOid st.busId e) ∧
        (∀ c ∈ deadReps, c.event = BusEvent.dead st.nextOid st.busId e)) ∧
      (¬ ((snapshotFor st.registry types).length = 0 ∧
          e.isDeadInstance = false) →
        r.deadPosted = [] ∧ deadInvs = [] ∧ deadReps = []) := by
  rw [post]
  simp only [hn, Bool.false_eq_true, if_false, hres]
  obtain ⟨reg2, hda⟩ := deliverAll_sync_char env e hR
    (snapshotFor st.registry types) { st with resolver := res2 }
  simp only [hda]
  by_cases hc : (snapshotFor st.registry types).length = 0 ∧
      e.isDeadInstance = false
  · rw [dif_pos hc]
    obtain ⟨r2, hr2, hdp, hinv, hrep⟩ := post_dead_sync_char env
      ⟨st.busId, reg2, res2, st.nextOid + 1, st.tasks⟩
      st.nextOid st.busId e hR
    rw [hr2]
    refine ⟨_, r2.invoked, r2.reports, rfl, rfl, rfl, rfl, ?_, ?_⟩
    · intro _
      exact ⟨by simp [hdp], hinv, hrep⟩
    · intro hcon
      exact absurd hc hcon
  · rw [dif_neg hc]
    refine ⟨_, [], [], rfl, rfl, by simp, by simp, ?_, ?_⟩
    · intro hcon
      exact absurd hcon hc
    · intro _
      exact ⟨rfl, rfl, rfl⟩

/-- Full characterization of `post` on the deferred bus: it always
returns (given a successful type resolution), runs no handler body,
reports nothing, leaves the registry untouched, returns the snapshot size
computed synchronously, and appends exactly one task per snapshotted
handler in snapshot order (tasks for the re-posted `DeadEvent`'s handlers
when the snapshot was empty). -/
theorem post_queued_char (env : Env) (st : BusState) (e : BusEvent)
    (types : List Ctor) (res2 : TypeResolver)
    (hn : e.isNullish = false)
    (hres : getTypesFor st.resolver e (hasObjectKey st.registry) =
      .ok (types, res2)) :
    ∃ r,
      post .queued env st e = .ok r ∧
      r.delivered = (snapshotFor st.registry types).length ∧
      r.invoked = [] ∧
      r.reports = [] ∧
      r.st.registry = st.registry ∧
      r.st.busId = st.busId ∧
      ((snapshotFor st.registry types).length = 0 ∧ e.isDeadInstance = false →
        ∃ tsD resD,
          getTypesFor res2 (BusEvent.dead st.nextOid st.busId e)
            (hasObjectKey st.registry) = .ok (tsD, resD) ∧
          r.st.tasks = st.tasks ++ (snapshotFor st.registry tsD).map
            (fun p => ⟨p.2, p.1, BusEvent.dead st.nextOid st.busId e⟩)) ∧
      (¬ ((snapshotFor st.registry types).length = 0 ∧
          e.isDeadInstance = false) →
        r.st.tasks = st.tasks ++ (snapshotFor st.registry types).map
          (fun p => ⟨p.2, p.1, e⟩)) := by
  rw [post]
  simp only [hn, Bool.false_eq_true, if_false, hres, deliverAll_queued_char]
  by_cases hc : (snapshotFor st.registry types).length = 0 ∧
      e.isDeadInstance = false
  · rw [dif_pos hc]
    have hsnap : snapshotFor st.registry types = [] :=
      List.eq_nil_of_length_eq_zero hc.1
    obtain ⟨tsD, resD, hgD, hpD⟩ := post_dead_queued_char env
      ⟨st.busId, st.registry, res2, st.nextOid + 1,
        st.tasks ++ (snapshotFor st.registry types).map
          (fun p => ⟨p.2, p.1, e⟩)⟩
      st.nextOid st.busId e
    simp only [hsnap, List.map_nil, List.append_nil] at hgD hpD ⊢
    rw [hpD]
    refine ⟨_, rfl, by simp [hsnap], rfl, rfl, rfl, rfl, ?_, ?_⟩
    · intro _
      exact ⟨tsD, resD, hgD, rfl⟩
    · intro hcon
      exact absurd ⟨rfl, hc.2⟩ hcon
  · rw [dif_neg hc]
    refine ⟨_, rfl, rfl, rfl, rfl, rfl, rfl, ?_, ?_⟩
    · intro hcon
      exact absurd hcon hc
    · intro _
      rfl

/-- A registered handler under a resolved type appears in the snapshot. -/
theorem snapshot_mem_of_mem {reg : Registry} {types : List Ctor} {t : Ctor}
    {hs : List Nat} {fn : Nat} (ht : t ∈ types)
    (hreg : regFind reg t = some hs) (hfn : fn ∈ hs) :
    (t, fn) ∈ snapshotFor reg types := by
  induction types with
  | nil => cases ht
  | cons t0 rest ih =>
    simp only [snapshotFor, List.flatMap_cons, List.mem_append]
    rcases List.mem_cons.mp ht with h1 | h1
    · subst h1
      left
      rw [hreg]
      exact List.mem_map.mpr ⟨fn, hfn, rfl⟩
    · right
      simpa [snapshotFor] using ih h1

/-- Turning snapshot pairs into invocation records preserves occurrence
counts. -/
theorem count_invocation_map (snap : List (Ctor × Nat)) (t : Ctor) (fn : Nat)
    (e : BusEvent) :
    (snap.map (fun p => (⟨p.2, p.1, e⟩ : Invocation))).count ⟨fn, t, e⟩ =
      snap.count (t, fn) := by
  induction snap with
  | nil => rfl
  | cons p rest ih =>
    obtain ⟨t0, f0⟩ := p
    simp only [List.map_cons, List.count_cons, ih, beq_iff_eq]
    congr 1
    by_cases he : t0 = t <;> by_cases hf : f0 = fn <;>
      simp [he, hf, Invocation.mk.injEq, Prod.mk.injEq]

/-! ## Claim theorems -/

/-- C1: for every non-null event posted while no handler is registered for
any of its resolved types (its nominal type, its ancestors, or the
universal root), `post` returns 0 and re-posts exactly one `DeadEvent`
with `source` set to the bus and `event` set to the posted event — unless
the event is itself a `DeadEvent`, in which case nothing is re-posted, so
a `DeadEvent` is never wrapped in another `DeadEvent`. -/
theorem c1_dead_event_on_unhandled (env : Env) (st : BusState) (e : BusEvent)
    (types : List Ctor) (res2 : TypeResolver)
    (hR : ∀ c, env.reporterThrows c = false)
    (hn : e.isNullish = false)
    (hres : getTypesFor st.resolver e (hasObjectKey st.registry) =
      .ok (types, res2))
    (hempty : ∀ t ∈ types, ∀ hs, regFind st.registry t = some hs → hs = []) :
    ∃ r, post .sync env st e = .ok r ∧ r.delivered = 0 ∧
      (e.isDeadInstance = false →
        r.deadPosted = [BusEvent.dead st.nextOid st.busId e]) ∧
      (e.isDeadInstance = true → r.deadPosted = []) := by
  have hsnap : snapshotFor st.registry types = [] :=
    snapshotFor_nil_of_empty hempty
  obtain ⟨r, dI, dR, hpost, hdel, _, _, hposc, hnegc⟩ :=
    post_sync_char env st e types res2 hR hn hres
  refine ⟨r, hpost, by rw [hdel, hsnap]; rfl, ?_, ?_⟩
  · intro hde
    exact (hposc ⟨by rw [hsnap]; rfl, hde⟩).1
  · intro hde
    exact (hnegc (by simp [hde])).1

/-- C2: when some class A occurs (once) among an event's resolved types —
in particular when the event is an instance of a derived class B of A —
a handler subscribed (once) under A is invoked exactly once by `post`,
and the returned count tallies every performed invocation, including that
one. -/
theorem c2_polymorphic_dispatch (env : Env) (st : BusState) (e : BusEvent)
    (types : List Ctor) (res2 : TypeResolver) (aId : Nat) (hs : List Nat)
    (h0 : Nat)
    (hR : ∀ c, env.reporterThrows c = false)
    (hn : e.isNullish = false)
    (hres : getTypesFor st.resolver e (hasObjectKey st.registry) =
      .ok (types, res2))
    (hA : types.count (Ctor.cls aId) = 1)
    (hreg : regFind st.registry (Ctor.cls aId) = some hs)
    (hh : hs.count h0 = 1) :
    ∃ r, post .sync env st e = .ok r ∧
      r.invoked.count ⟨h0, Ctor.cls aId, e⟩ = 1 ∧
      r.delivered = r.invoked.length ∧
      1 ≤ r.delivered := by
  have hcnt : (snapshotFor st.registry types).count (Ctor.cls aId, h0) = 1 :=
    (snapshotFor_count hA hreg).trans hh
  have hmem : (Ctor.cls aId, h0) ∈ snapshotFor st.registry types :=
    List.count_pos_iff.mp (by rw [hcnt]; exact Nat.one_pos)
  have hlen : (snapshotFor st.registry types).length ≠ 0 := by
    intro hl
    rw [List.eq_nil_of_length_eq_zero hl] at hmem
    cases hmem
  obtain ⟨r, dI, dR, hpost, hdel, hinv, _, _, hnegc⟩ :=
    post_sync_char env st e types res2 hR hn hres
  obtain ⟨_, hdI, _⟩ := hnegc (fun hco => hlen hco.1)
  subst hdI
  rw [List.append_nil] at hinv
  refine ⟨r, hpost, ?_, ?_, ?_⟩
  · rw [hinv, count_invocation_map]
    exact hcnt
  · rw [hdel, hinv, List.length_map]
  · rw [hdel]
    exact Nat.one_le_iff_ne_zero.mpr hlen

/-- C3: `post` returns the number of (type, handler) pairs in the snapshot
taken from the pre-call registry before any handler ran — independent of
whether handlers throw or mutate the registry during delivery — and the
handlers that receive the posted event are exactly the snapshotted ones,
in snapshot order, so handlers subscribed or unsubscribed during delivery
neither receive the in-flight event nor change the returned count. -/
theorem c3_snapshot_semantics (env : Env) (st : BusState) (e : BusEvent)
    (types : List Ctor) (res2 : TypeResolver)
    (hR : ∀ c, env.reporterThrows c = false)
    (hn : e.isNullish = false)
    (hres : getTypesFor st.resolver e (hasObjectKey st.registry) =
      .ok (types, res2)) :
    ∃ r, post .sync env st e = .ok r ∧
      r.delivered = (snapshotFor st.registry types).length ∧
      r.invoked.filter (fun iv => iv.event == e) =
        (snapshotFor st.registry types).map (fun p => ⟨p.2, p.1, e⟩) := by
  obtain ⟨r, dI, dR, hpost, hdel, hinv, _, hposc, hnegc⟩ :=
    post_sync_char env st e types res2 hR hn hres
  refine ⟨r, hpost, hdel, ?_⟩
  rw [hinv, List.filter_append]
  have h1 : ((snapshotFor st.registry types).map
      (fun p => (⟨p.2, p.1, e⟩ : Invocation))).filter
        (fun iv => iv.event == e) =
      (snapshotFor st.registry types).map (fun p => ⟨p.2, p.1, e⟩) := by
    rw [List.filter_eq_self]
    intro iv hiv
    rcases List.mem_map.mp hiv with ⟨p, _, hp⟩
    rw [← hp]
    simp
  have h2 : dI.filter (fun iv => iv.event == e) = [] := by
    by_cases hc : (snapshotFor st.registry types).length = 0 ∧
        e.isDeadInstance = false
    · obtain ⟨_, hdev, _⟩ := hposc hc
      rw [List.filter_eq_nil_iff]
      intro iv hiv
      rw [hdev iv hiv]
      simp [dead_ne_self]
    · rw [(hnegc hc).2.1]
      rfl
  rw [h1, h2, List.append_nil]

/-- C4: with a (default, non-throwing) Exception Reporter, a throwing
handler does not abort the post: `post` still returns, every snapshotted
handler — including those after the throwing one — is still invoked with
the posted event, the reporter is invoked exactly once per throwing
invocation with context `{event, eventType = the resolved type the handler
was registered under, handler, eventBus = the dispatching bus}`, and no
handler error propagates to the caller. -/
theorem c4_handler_error_isolation (env : Env) (st : BusState) (e : BusEvent)
    (types : List Ctor) (res2 : TypeResolver)
    (hR : ∀ c, env.reporterThrows c = false)
    (hn : e.isNullish = false)
    (hres : getTypesFor st.resolver e (hasObjectKey st.registry) =
      .ok (types, res2)) :
    ∃ r, post .sync env st e = .ok r ∧
      r.invoked.filter (fun iv => iv.event == e) =
        (snapshotFor st.registry types).map (fun p => ⟨p.2, p.1, e⟩) ∧
      r.reports.filter (fun c => c.event == e) =
        ((snapshotFor st.registry types).filter
            (fun p => env.handlerThrows p.2 e)).map
          (fun p => ⟨e, p.1, p.2, st.busId⟩) := by
  obtain ⟨r, dI, dR, hpost, _, hinv, hrep, hposc, hnegc⟩ :=
    post_sync_char env st e types res2 hR hn hres
  refine ⟨r, hpost, ?_, ?_⟩
  · rw [hinv, List.filter_append]
    have h1 : ((snapshotFor st.registry types).map
        (fun p => (⟨p.2, p.1, e⟩ : Invocation))).filter
          (fun iv => iv.event == e) =
        (snapshotFor st.registry types).map (fun p => ⟨p.2, p.1, e⟩) := by
      rw [List.filter_eq_self]
      intro iv hiv
      rcases List.mem_map.mp hiv with ⟨p, _, hp⟩
      rw [← hp]
      simp
    have h2 : dI.filter (fun iv => iv.event == e) = [] := by
      by_cases hc : (snapshotFor st.registry types).length = 0 ∧
          e.isDeadInstance = false
      · obtain ⟨_, hdev, _⟩ := hposc hc
        rw [List.filter_eq_nil_iff]
        intro iv hiv
        rw [hdev iv hiv]
        simp [dead_ne_self]
      · rw [(hnegc hc).2.1]
        rfl
    rw [h1, h2, List.append_nil]
  · rw [hrep, List.filter_append]
    have h1 : (((snapshotFor st.registry types).filter
        (fun p => env.handlerThrows p.2 e)).map
          (fun p => (⟨e, p.1, p.2, st.busId⟩ : Ctx))).filter
            (fun c => c.event == e) =
        ((snapshotFor st.registry types).filter
            (fun p => env.handlerThrows p.2 e)).map
          (fun p => ⟨e, p.1, p.2, st.busId⟩) := by
      rw [List.filter_eq_self]
      intro c hc
      rcases List.mem_map.mp hc with ⟨p, _, hp⟩
      rw [← hp]
      simp
    have h2 : dR.filter (fun c => c.event == e) = [] := by
      by_cases hc : (snapshotFor st.registry types).length = 0 ∧
          e.isDeadInstance = false
      · obtain ⟨_, _, hdev⟩ := hposc hc
        rw [List.filter_eq_nil_iff]
        intro c hcm
        rw [hdev c hcm]
        simp [dead_ne_self]
      · rw [(hnegc hc).2.2]
        rfl
    rw [h1, h2, List.append_nil]

/-- C5: with at least one handler registered under the universal root
type, every posted object value — ordinary instances, plain objects, and
`DeadEvent` instances alike — is delivered to each root handler and
counted, and no `DeadEvent` is emitted for an event that matched only the
root handlers. -/
theorem c5_universal_root_matches_objects (env : Env) (st : BusState)
    (e : BusEvent) (types : List Ctor) (res2 : TypeResolver) (hsObj : List Nat)
    (hR : ∀ c, env.reporterThrows c = false)
    (ho : e.isObjVal = true)
    (hreg : regFind st.registry Ctor.object = some hsObj)
    (hne : hsObj ≠ [])
    (hres : getTypesFor st.resolver e (hasObjectKey st.registry) =
      .ok (types, res2)) :
    ∃ r, post .sync env st e = .ok r ∧
      1 ≤ r.delivered ∧
      (∀ h0 ∈ hsObj, (⟨h0, Ctor.object, e⟩ : Invocation) ∈ r.invoked) ∧
      r.deadPosted = [] := by
  have hn : e.isNullish = false := by
    cases e <;> simp_all [BusEvent.isObjVal, BusEvent.isNullish]
  have hkey : hasObjectKey st.registry = true := by
    simp [hasObjectKey, hreg]
  have homem : Ctor.object ∈ types := by
    rw [hkey] at hres
    exact getTypesFor_object_mem ho hres
  obtain ⟨f0, hf0⟩ : ∃ f0, f0 ∈ hsObj := by
    cases hsObj with
    | nil => exact absurd rfl hne
    | cons a l => exact ⟨a, by simp⟩
  have hsnapmem : ∀ h0 ∈ hsObj,
      (Ctor.object, h0) ∈ snapshotFor st.registry types :=
    fun h0 hh0 => snapshot_mem_of_mem homem hreg hh0
  have hlen : (snapshotFor st.registry types).length ≠ 0 := by
    intro hl
    have := hsnapmem f0 hf0
    rw [List.eq_nil_of_length_eq_zero hl] at this
    cases this
  obtain ⟨r, dI, dR, hpost, hdel, hinv, _, _, hnegc⟩ :=
    post_sync_char env st e types res2 hR hn hres
  obtain ⟨hdead, hdI, _⟩ := hnegc (fun hco => hlen hco.1)
  refine ⟨r, hpost, ?_, ?_, hdead⟩
  · rw [hdel]
    exact Nat.one_le_iff_ne_zero.mpr hlen
  · intro h0 hh0
    rw [hinv, hdI, List.append_nil]
    exact List.mem_map.mpr ⟨(Ctor.object, h0), hsnapmem h0 hh0, rfl⟩

/-- C10: posting a non-null, non-object value (number, string, boolean,
symbol, function) returns 0 and re-posts exactly one `DeadEvent` wrapping
the value, regardless of the registered handlers; no handler — not even a
universal-root handler — ever receives the primitive itself: every
invocation performed by the call carries the wrapping `DeadEvent`. -/
theorem c10_primitives_never_delivered (env : Env) (st : BusState) (tag : Nat)
    (hR : ∀ c, env.reporterThrows c = false) :
    ∃ r, post .sync env st (BusEvent.prim tag) = .ok r ∧
      r.delivered = 0 ∧
      r.deadPosted = [BusEvent.dead st.nextOid st.busId (BusEvent.prim tag)] ∧
      ∀ iv ∈ r.invoked,
        iv.event = BusEvent.dead st.nextOid st.busId (BusEvent.prim tag) := by
  have hres : getTypesFor st.resolver (BusEvent.prim tag)
      (hasObjectKey st.registry) = .ok ([], st.resolver) := rfl
  obtain ⟨r, dI, dR, hpost, hdel, hinv, _, hposc, _⟩ :=
    post_sync_char env st (BusEvent.prim tag) [] st.resolver hR rfl hres
  obtain ⟨hdead, hdev, _⟩ := hposc ⟨rfl, rfl⟩
  refine ⟨r, hpost, by rw [hdel]; rfl, hdead, ?_⟩
  intro iv hiv
  rw [hinv] at hiv
  simp only [snapshotFor, List.flatMap_nil, List.map_nil,
    List.nil_append] at hiv
  exact hdev iv hiv

/-- C8: on the deferred bus, `post` returns synchronously — before any
handler body has executed (no invocation is performed and the registry is
untouched) — with the same delivered target count the synchronous bus
would return from the same state, and it submits exactly one zero-argument
task per snapshotted handler to the executor, in snapshot order
(type-major, then insertion order within a type); when the snapshot is
empty the submitted tasks are those of the re-posted `DeadEvent`'s own
snapshot. -/
theorem c8_deferred_delivery (env : Env) (st : BusState) (e : BusEvent)
    (types : List Ctor) (res2 : TypeResolver)
    (hn : e.isNullish = false)
    (hres : getTypesFor st.resolver e (hasObjectKey st.registry) =
      .ok (types, res2)) :
    ∃ r, post .queued env st e = .ok r ∧
      r.delivered = (snapshotFor st.registry types).length ∧
      (∀ r2, post .sync env st e = .ok r2 → r2.delivered = r.delivered) ∧
      r.invoked = [] ∧
      r.reports = [] ∧
      r.st.registry = st.registry ∧
      (¬ ((snapshotFor st.registry types).length = 0 ∧
          e.isDeadInstance = false) →
        r.st.tasks = st.tasks ++ (snapshotFor st.registry types).map
          (fun p => ⟨p.2, p.1, e⟩)) ∧
      ((snapshotFor st.registry types).length = 0 ∧ e.isDeadInstance = false →
        ∃ tsD resD,
          getTypesFor res2 (BusEvent.dead st.nextOid st.busId e)
            (hasObjectKey st.registry) = .ok (tsD, resD) ∧
          r.st.tasks = st.tasks ++ (snapshotFor st.registry tsD).map
            (fun p => ⟨p.2, p.1, BusEvent.dead st.nextOid st.busId e⟩)) := by
  obtain ⟨r, hpost, hdel, hinv, hrep, hregs, hbus, hdeadc, hnegc⟩ :=
    post_queued_char env st e types res2 hn hres
  refine ⟨r, hpost, hdel, ?_, hinv, hrep, hregs, hnegc, hdeadc⟩
  intro r2 hp2
  rw [post_delivered_eq hn hres hp2, hdel]

/-- C9: a custom Exception Reporter that throws is not caught by the
dispatcher.  With a throwing handler first in the snapshot and a reporter
that throws on its failure context: on the synchronous bus the reporter's
exception propagates out of `post` itself, while on the deferred bus
`post` still returns normally (having queued the handler's task) and the
reporter's exception propagates out of the scheduled task when it is
executed. -/
theorem c9_reporter_errors_propagate (env : Env) (st : BusState)
    (e : BusEvent) (types : List Ctor) (res2 : TypeResolver) (t0 : Ctor)
    (f0 : Nat) (rest : List (Ctor × Nat))
    (hn : e.isNullish = false)
    (hres : getTypesFor st.resolver e (hasObjectKey st.registry) =
      .ok (types, res2))
    (hsnap : snapshotFor st.registry types = (t0, f0) :: rest)
    (hth : env.handlerThrows f0 e = true)
    (hrep : env.reporterThrows ⟨e, t0, f0, st.busId⟩ = true) :
    post .sync env st e = .error (.reporterErr ⟨e, t0, f0, st.busId⟩) ∧
    ∃ r, post .queued env st e = .ok r ∧
      (⟨f0, t0, e⟩ : Invocation) ∈ r.st.tasks ∧
      runTask env r.st ⟨f0, t0, e⟩ = .error ⟨e, t0, f0, st.busId⟩ := by
  constructor
  · rw [post]
    simp only [hn, Bool.false_eq_true, if_false, hres, hsnap, deliverAll,
      deliver, deliverSync, hth, if_true, hrep]
  · obtain ⟨r, hpost, _, _, _, _, hbus, _, hnegc⟩ :=
      post_queued_char env st e types res2 hn hres
    have htasks := hnegc (by simp [hsnap])
    refine ⟨r, hpost, ?_, ?_⟩
    · rw [htasks, hsnap]
      simp
    · rw [runTask, deliverSync]
      simp only [hth, hbus, hrep, if_true]

/-- A constructor walk containing no malformed constructor. -/
def wellFormedChain : CtorChain → Bool
  | .nullC => true
  | .objectC => true
  | .cls _ next => wellFormedChain next
  | .deadC next => wellFormedChain next
  | .malformed => false

/-- A well-formed constructor walk never raises. -/
theorem walkChain_ok_of_wellFormed {ch : CtorChain}
    (h : wellFormedChain ch = true) : ∃ ts, walkChain ch = .ok ts := by
  induction ch with
  | nullC => exact ⟨[], rfl⟩
  | objectC => exact ⟨[], rfl⟩
  | cls id next ih =>
    obtain ⟨ts, hts⟩ := ih (by simpa [wellFormedChain] using h)
    exact ⟨Ctor.cls id :: ts, by simp [walkChain, hts]⟩
  | deadC next ih =>
    obtain ⟨ts, hts⟩ := ih (by simpa [wellFormedChain] using h)
    exact ⟨Ctor.deadEventType :: ts, by simp [walkChain, hts]⟩
  | malformed => simp [wellFormedChain] at h

/-- C6 (counterexample): the cached entry does not always store the
root-exclusive resolution.  A first call with `includeUniversalRoot = true`
on a fresh instance caches the root-inclusive list: resolving
`new B()` (class id 1, oid 0) with the flag set stores
`[B, Object]` — which contains the universal root — as the cache entry. -/
theorem c6_counterexample :
    getTypesFor ⟨[]⟩ (BusEvent.obj 0 (CtorChain.cls 1 CtorChain.objectC))
        true =
      .ok ([Ctor.cls 1, Ctor.object],
        ⟨[(0, [Ctor.cls 1, Ctor.object])]⟩) ∧
    cacheFind (⟨[(0, [Ctor.cls 1, Ctor.object])]⟩ :
        TypeResolver).typeCache 0 = some [Ctor.cls 1, Ctor.object] ∧
    Ctor.object ∈ [Ctor.cls 1, Ctor.object] := by
  refine ⟨rfl, rfl, ?_⟩
  simp

/-- C6 (amended): the cached entry stores the resolution computed at the
first (cache-miss) call for the instance, which includes the universal
root exactly when that call requested root inclusion (so it is
root-exclusive whenever the first call's flag was false); a cache-hit call
never modifies the resolver state — when it requests root inclusion and
the cached entry lacks the root, the root is appended to a derived copy
that is returned but never stored. -/
theorem c6_cache_discipline (tr : TypeResolver) (e : BusEvent) (flag : Bool)
    (ts : List Ctor) (tr2 : TypeResolver)
    (ho : e.isObjVal = true)
    (h : getTypesFor tr e flag = .ok (ts, tr2)) :
    (∀ c, cacheFind tr.typeCache e.oidOf = some c → tr2 = tr ∧
      ts = (if flag = true ∧ Ctor.object ∉ c then c ++ [Ctor.object] else c)) ∧
    (cacheFind tr.typeCache e.oidOf = none →
      ∃ out0, walkChain e.chainOf = .ok out0 ∧
        cacheFind tr2.typeCache e.oidOf =
          some (if flag then out0 ++ [Ctor.object] else out0) ∧
        (flag = false → Ctor.object ∉ out0)) := by
  unfold getTypesFor at h
  rw [ho] at h
  simp only [Bool.true_eq_false, if_false] at h
  constructor
  · intro c hcc
    rw [hcc] at h
    simp only at h
    cases h
    exact ⟨rfl, rfl⟩
  · intro hcn
    rw [hcn] at h
    simp only at h
    revert h
    cases hw : walkChain e.chainOf with
    | error err => intro h; exact Except.noConfusion h
    | ok out0 =>
      intro h
      simp only at h
      cases h
      exact ⟨out0, rfl, by simp [cacheFind], fun _ => walkChain_no_object hw⟩

/-- C7 (counterexample): `getTypesFor` is not exception-free on arbitrary
inputs: for an object whose `constructor` property is a truthy
non-constructor value without a usable `prototype` object (e.g.
`{constructor: 42}`), the walk evaluates
`Object.getPrototypeOf(ctor.prototype)` with `ctor.prototype` undefined
and raises a TypeError instead of returning a list. -/
theorem c7_counterexample :
    getTypesFor ⟨[]⟩ (BusEvent.obj 0 CtorChain.malformed) false =
      .error () := rfl

/-- C7 (amended): `getTypesFor` returns an empty list, without raising,
for null, missing and primitive inputs, and never raises for an object
input whose constructor walk is well-formed (every encountered constructor
is absent, the root `Object`, or a proper class with a usable prototype);
only a malformed constructor makes it raise. -/
theorem c7_no_throw (tr : TypeResolver) (e : BusEvent) (flag : Bool)
    (h : e.isObjVal = false ∨ wellFormedChain e.chainOf = true) :
    ∃ res, getTypesFor tr e flag = .ok res ∧
      (e.isObjVal = false → res = ([], tr)) := by
  cases ho : e.isObjVal with
  | false =>
    refine ⟨([], tr), ?_, fun _ => rfl⟩
    unfold getTypesFor
    rw [ho]
    simp
  | true =>
    have hwf : wellFormedChain e.chainOf = true := by
      rcases h with h | h
      · rw [ho] at h; cases h
      · exact h
    unfold getTypesFor
    rw [ho]
    simp only [Bool.true_eq_false, if_false]
    cases hc : cacheFind tr.typeCache e.oidOf with
    | some cached =>
      exact ⟨_, rfl, fun hfo => by simp [ho] at hfo⟩
    | none =>
      obtain ⟨ts, hts⟩ := walkChain_ok_of_wellFormed hwf
      rw [hts]
      exact ⟨_, rfl, fun hfo => by simp [ho] at hfo⟩

/-! ## Concrete fixtures for the witnesses -/

/-- Handlers never throw or mutate; reporter never throws. -/
def envQuiet : Env := ⟨fun _ _ => false, fun _ _ r => r, fun _ => false⟩

/-- Handler record 10 throws on every event; reporter never throws. -/
def envThrow10 : Env := ⟨fun f _ => f == 10, fun _ _ r => r, fun _ => false⟩

/-- Handler record 10 throws, and the custom reporter itself throws. -/
def envBadReporter : Env := ⟨fun f _ => f == 10, fun _ _ r => r, fun _ => true⟩

/-- An instance of a base class (id 1), object identity 3. -/
def evB : BusEvent := BusEvent.obj 3 (CtorChain.cls 1 CtorChain.objectC)

/-- An instance of a derived class (id 1) extending class id 2. -/
def evBA : BusEvent :=
  BusEvent.obj 3 (CtorChain.cls 1 (CtorChain.cls 2 CtorChain.objectC))

/-- A `DeadEvent` instance wrapping a primitive. -/
def evDead : BusEvent := BusEvent.dead 3 0 (BusEvent.prim 1)

/-- A bus with no subscriptions. -/
def stEmpty : BusState := ⟨0, [], ⟨[]⟩, 5, []⟩

/-- A bus with one handler under the base class id 2. -/
def stA : BusState := ⟨0, [(Ctor.cls 2, [10])], ⟨[]⟩, 5, []⟩

/-- A bus with two handlers under class id 1. -/
def st2H : BusState := ⟨0, [(Ctor.cls 1, [10, 11])], ⟨[]⟩, 5, []⟩

/-- A bus with one handler under class id 1. -/
def st1H : BusState := ⟨0, [(Ctor.cls 1, [10])], ⟨[]⟩, 5, []⟩

/-- A bus with one universal-root (Object) handler. -/
def stRoot : BusState := ⟨0, [(Ctor.object, [30])], ⟨[]⟩, 5, []⟩

/-! ## Witnesses -/

/-- Witness for C1: posting an instance of an unhandled class on an empty
bus returns 0 and re-posts exactly one `DeadEvent` wrapping it. -/
theorem c1_witness :
    ((∀ c, envQuiet.reporterThrows c = false) ∧
      evB.isNullish = false ∧
      getTypesFor stEmpty.resolver evB (hasObjectKey stEmpty.registry) =
        .ok ([Ctor.cls 1], ⟨[(3, [Ctor.cls 1])]⟩) ∧
      (∀ t ∈ [Ctor.cls 1], ∀ hs,
        regFind stEmpty.registry t = some hs → hs = [])) ∧
    (∃ r, post .sync envQuiet stEmpty evB = .ok r ∧ r.delivered = 0 ∧
      (evB.isDeadInstance = false →
        r.deadPosted =
          [BusEvent.dead stEmpty.nextOid stEmpty.busId evB]) ∧
      (evB.isDeadInstance = true → r.deadPosted = [])) :=
  ⟨⟨fun _ => rfl, rfl, rfl, by simp [stEmpty, regFind]⟩,
    c1_dead_event_on_unhandled envQuiet stEmpty evB [Ctor.cls 1]
      ⟨[(3, [Ctor.cls 1])]⟩ (fun _ => rfl) rfl rfl
      (by simp [stEmpty, regFind])⟩

/-- Witness for C2: subscribing under the base class (id 2) and posting an
instance of the derived class delivers exactly once and is counted. -/
theorem c2_witness :
    ((∀ c, envQuiet.reporterThrows c = false) ∧
      evBA.isNullish = false ∧
      getTypesFor stA.resolver evBA (hasObjectKey stA.registry) =
        .ok ([Ctor.cls 1, Ctor.cls 2],
          ⟨[(3, [Ctor.cls 1, Ctor.cls 2])]⟩) ∧
      [Ctor.cls 1, Ctor.cls 2].count (Ctor.cls 2) = 1 ∧
      regFind stA.registry (Ctor.cls 2) = some [10] ∧
      [10].count 10 = 1) ∧
    (∃ r, post .sync envQuiet stA evBA = .ok r ∧
      r.invoked.count ⟨10, Ctor.cls 2, evBA⟩ = 1 ∧
      r.delivered = r.invoked.length ∧
      1 ≤ r.delivered) :=
  ⟨⟨fun _ => rfl, rfl, rfl, by decide, rfl, by decide⟩,
    c2_polymorphic_dispatch envQuiet stA evBA [Ctor.cls 1, Ctor.cls 2]
      ⟨[(3, [Ctor.cls 1, Ctor.cls 2])]⟩ 2 [10] 10 (fun _ => rfl) rfl rfl
      (by decide) rfl (by decide)⟩

/-- Witness for C3: a post through a bus with two handlers, the first
throwing, still returns the snapshot count and invokes both snapshotted
handlers with the in-flight event. -/
theorem c3_witness :
    ((∀ c, envThrow10.reporterThrows c = false) ∧
      evB.isNullish = false ∧
      getTypesFor st2H.resolver evB (hasObjectKey st2H.registry) =
        .ok ([Ctor.cls 1], ⟨[(3, [Ctor.cls 1])]⟩)) ∧
    (∃ r, post .sync envThrow10 st2H evB = .ok r ∧
      r.delivered = (snapshotFor st2H.registry [Ctor.cls 1]).length ∧
      r.invoked.filter (fun iv => iv.event == evB) =
        (snapshotFor st2H.registry [Ctor.cls 1]).map
          (fun p => ⟨p.2, p.1, evB⟩)) :=
  ⟨⟨fun _ => rfl, rfl, rfl⟩,
    c3_snapshot_semantics envThrow10 st2H evB [Ctor.cls 1]
      ⟨[(3, [Ctor.cls 1])]⟩ (fun _ => rfl) rfl rfl⟩

/-- Witness for C4: with handler 10 throwing and handler 11 quiet, both
are invoked and exactly one report is produced, with the full context. -/
theorem c4_witness :
    ((∀ c, envThrow10.reporterThrows c = false) ∧
      evB.isNullish = false ∧
      getTypesFor st2H.resolver evB (hasObjectKey st2H.registry) =
        .ok ([Ctor.cls 1], ⟨[(3, [Ctor.cls 1])]⟩)) ∧
    (∃ r, post .sync envThrow10 st2H evB = .ok r ∧
      r.invoked.filter (fun iv => iv.event == evB) =
        (snapshotFor st2H.registry [Ctor.cls 1]).map
          (fun p => ⟨p.2, p.1, evB⟩) ∧
      r.reports.filter (fun c => c.event == evB) =
        ((snapshotFor st2H.registry [Ctor.cls 1]).filter
            (fun p => envThrow10.handlerThrows p.2 evB)).map
          (fun p => ⟨evB, p.1, p.2, st2H.busId⟩)) :=
  ⟨⟨fun _ => rfl, rfl, rfl⟩,
    c4_handler_error_isolation envThrow10 st2H evB [Ctor.cls 1]
      ⟨[(3, [Ctor.cls 1])]⟩ (fun _ => rfl) rfl rfl⟩

/-- Witness for C5: a `DeadEvent` instance posted on a bus whose only
handler is registered under the universal root is delivered to that
handler, counted, and triggers no further dead event. -/
theorem c5_witness :
    ((∀ c, envQuiet.reporterThrows c = false) ∧
      evDead.isObjVal = true ∧
      regFind stRoot.registry Ctor.object = some [30] ∧
      ([30] : List Nat) ≠ [] ∧
      getTypesFor stRoot.resolver evDead (hasObjectKey stRoot.registry) =
        .ok ([Ctor.deadEventType, Ctor.object],
          ⟨[(3, [Ctor.deadEventType, Ctor.object])]⟩)) ∧
    (∃ r, post .sync envQuiet stRoot evDead = .ok r ∧
      1 ≤ r.delivered ∧
      (∀ h0 ∈ [30], (⟨h0, Ctor.object, evDead⟩ : Invocation) ∈ r.invoked) ∧
      r.deadPosted = []) :=
  ⟨⟨fun _ => rfl, rfl, rfl, by simp, rfl⟩,
    c5_universal_root_matches_objects envQuiet stRoot evDead
      [Ctor.deadEventType, Ctor.object]
      ⟨[(3, [Ctor.deadEventType, Ctor.object])]⟩ [30] (fun _ => rfl) rfl rfl
      (by simp) rfl⟩

/-- Witness for C6 (amended): a first resolution with the root flag set
caches the root-inclusive list; the cache-hit discipline holds at that
state. -/
theorem c6_witness :
    ((BusEvent.obj 0 (CtorChain.cls 1 CtorChain.objectC)).isObjVal = true ∧
      getTypesFor ⟨[]⟩ (BusEvent.obj 0 (CtorChain.cls 1 CtorChain.objectC))
        true = .ok ([Ctor.cls 1, Ctor.object],
          ⟨[(0, [Ctor.cls 1, Ctor.object])]⟩)) ∧
    ((∀ c, cacheFind (⟨[]⟩ : TypeResolver).typeCache
        (BusEvent.obj 0 (CtorChain.cls 1 CtorChain.objectC)).oidOf =
          some c →
        (⟨[(0, [Ctor.cls 1, Ctor.object])]⟩ : TypeResolver) = ⟨[]⟩ ∧
        [Ctor.cls 1, Ctor.object] =
          (if true = true ∧ Ctor.object ∉ c then c ++ [Ctor.object]
            else c)) ∧
      (cacheFind (⟨[]⟩ : TypeResolver).typeCache
          (BusEvent.obj 0 (CtorChain.cls 1 CtorChain.objectC)).oidOf =
            none →
        ∃ out0, walkChain (BusEvent.obj 0
            (CtorChain.cls 1 CtorChain.objectC)).chainOf = .ok out0 ∧
          cacheFind (⟨[(0, [Ctor.cls 1, Ctor.object])]⟩ :
              TypeResolver).typeCache
            (BusEvent.obj 0 (CtorChain.cls 1 CtorChain.objectC)).oidOf =
              some (if true then out0 ++ [Ctor.object] else out0) ∧
          (true = false → Ctor.object ∉ out0))) :=
  ⟨⟨rfl, rfl⟩,
    c6_cache_discipline ⟨[]⟩
      (BusEvent.obj 0 (CtorChain.cls 1 CtorChain.objectC)) true
      [Ctor.cls 1, Ctor.object] ⟨[(0, [Ctor.cls 1, Ctor.object])]⟩ rfl rfl⟩

/-- Witness for C7 (amended): a well-formed class instance resolves
without raising. -/
theorem c7_witness :
    ((BusEvent.obj 4 (CtorChain.cls 1 CtorChain.objectC)).isObjVal = false ∨
      wellFormedChain (BusEvent.obj 4
        (CtorChain.cls 1 CtorChain.objectC)).chainOf = true) ∧
    (∃ res, getTypesFor ⟨[]⟩
        (BusEvent.obj 4 (CtorChain.cls 1 CtorChain.objectC)) false =
          .ok res ∧
      ((BusEvent.obj 4 (CtorChain.cls 1 CtorChain.objectC)).isObjVal =
          false → res = ([], ⟨[]⟩))) :=
  ⟨Or.inr rfl,
    c7_no_throw ⟨[]⟩ (BusEvent.obj 4 (CtorChain.cls 1 CtorChain.objectC))
      false (Or.inr rfl)⟩

/-- Witness for C8: a deferred post on a bus with two handlers returns 2
synchronously, runs nothing, and queues exactly the two tasks in order. -/
theorem c8_witness :
    (evB.isNullish = false ∧
      getTypesFor st2H.resolver evB (hasObjectKey st2H.registry) =
        .ok ([Ctor.cls 1], ⟨[(3, [Ctor.cls 1])]⟩)) ∧
    (∃ r, post .queued envQuiet st2H evB = .ok r ∧
      r.delivered = (snapshotFor st2H.registry [Ctor.cls 1]).length ∧
      (∀ r2, post .sync envQuiet st2H evB = .ok r2 →
        r2.delivered = r.delivered) ∧
      r.invoked = [] ∧
      r.reports = [] ∧
      r.st.registry = st2H.registry ∧
      (¬ ((snapshotFor st2H.registry [Ctor.cls 1]).length = 0 ∧
          evB.isDeadInstance = false) →
        r.st.tasks = st2H.tasks ++
          (snapshotFor st2H.registry [Ctor.cls 1]).map
            (fun p => ⟨p.2, p.1, evB⟩)) ∧
      ((snapshotFor st2H.registry [Ctor.cls 1]).length = 0 ∧
          evB.isDeadInstance = false →
        ∃ tsD resD,
          getTypesFor ⟨[(3, [Ctor.cls 1])]⟩
            (BusEvent.dead st2H.nextOid st2H.busId evB)
            (hasObjectKey st2H.registry) = .ok (tsD, resD) ∧
          r.st.tasks = st2H.tasks ++ (snapshotFor st2H.registry tsD).map
            (fun p => ⟨p.2, p.1,
              BusEvent.dead st2H.nextOid st2H.busId evB⟩))) :=
  ⟨⟨rfl, rfl⟩,
    c8_deferred_delivery envQuiet st2H evB [Ctor.cls 1]
      ⟨[(3, [Ctor.cls 1])]⟩ rfl rfl⟩

/-- Witness for C9: with a throwing handler and a throwing reporter, the
synchronous post raises while the deferred post returns and the raised
error surfaces when the queued task runs. -/
theorem c9_witness :
    (evB.isNullish = false ∧
      getTypesFor st1H.resolver evB (hasObjectKey st1H.registry) =
        .ok ([Ctor.cls 1], ⟨[(3, [Ctor.cls 1])]⟩) ∧
      snapshotFor st1H.registry [Ctor.cls 1] = [(Ctor.cls 1, 10)] ∧
      envBadReporter.handlerThrows 10 evB = true ∧
      envBadReporter.reporterThrows ⟨evB, Ctor.cls 1, 10, st1H.busId⟩ =
        true) ∧
    (post .sync envBadReporter st1H evB =
      .error (.reporterErr ⟨evB, Ctor.cls 1, 10, st1H.busId⟩) ∧
    ∃ r, post .queued envBadReporter st1H evB = .ok r ∧
      (⟨10, Ctor.cls 1, evB⟩ : Invocation) ∈ r.st.tasks ∧
      runTask envBadReporter r.st ⟨10, Ctor.cls 1, evB⟩ =
        .error ⟨evB, Ctor.cls 1, 10, st1H.busId⟩) :=
  ⟨⟨rfl, rfl, rfl, rfl, rfl⟩,
    c9_reporter_errors_propagate envBadReporter st1H evB [Ctor.cls 1]
      ⟨[(3, [Ctor.cls 1])]⟩ (Ctor.cls 1) 10 [] rfl rfl rfl rfl rfl⟩

/-- Witness for C10: posting the primitive tagged 7 on a bus with only a
universal-root handler returns 0, wraps it in exactly one `DeadEvent`, and
every invocation of the call carries the `DeadEvent`, not the primitive. -/
theorem c10_witness :
    (∀ c, envQuiet.reporterThrows c = false) ∧
    (∃ r, post .sync envQuiet stRoot (BusEvent.prim 7) = .ok r ∧
      r.delivered = 0 ∧
      r.deadPosted =
        [BusEvent.dead stRoot.nextOid stRoot.busId (BusEvent.prim 7)] ∧
      ∀ iv ∈ r.invoked, iv.event =
        BusEvent.dead stRoot.nextOid stRoot.busId (BusEvent.prim 7)) :=
  ⟨fun _ => rfl,
    c10_primitives_never_delivered envQuiet stRoot 7 (fun _ => rfl)⟩

end LeverBus
